import Mathlib

/-!
A shallow embedding of the PatentView discovery-and-normalization pipeline
(`src/uspto_patent_extractor.py`).  Python dictionaries with string-valued
fields retrieved via `dict.get(key, '')` are modelled as structures with
`String` fields, where the empty string stands both for an absent key and a
falsy value (Python treats `None` and `''` identically in every truthiness
test of this file).  Network I/O and HTML parsing are external effects: each
adapter takes the data the network would have produced as an explicit
argument, together with a flag saying whether the transport succeeded, and
reports whether a network request was issued.  Fallible Python code
(`int(...)` conversions, `list[0]` on an empty list) is modelled with
`Except`/`Option`.
-/

/-- One inventor entry of a raw record
(fields `inventor_name_first` / `inventor_name_last`). -/
structure Inventor where
  inventor_name_first : String
  inventor_name_last : String
deriving DecidableEq

/-- One assignee entry of a raw record (field `assignee_organization`). -/
structure Assignee where
  assignee_organization : String
deriving DecidableEq

/-- A raw patent record as the adapters produce it.  `patent_id = ""` models
an absent or empty identifier. -/
structure RawPatent where
  patent_id : String
  patent_title : String
  patent_abstract : String
  patent_date : String
  inventors : List Inventor
  assignees : List Assignee
deriving DecidableEq

/-- The fields `_extract_patent_from_result` reads off one scraped search
result.  The HTML/regex extraction of lines 180-233 is the external parse
layer; an entry carries its already-extracted field values. -/
structure GoogleEntry where
  title : String
  patentNum : String
  abstract : String
  inventors : List Inventor
  assignees : List Assignee
  dateText : String
deriving DecidableEq

/-- The Python errors the embedded control flow distinguishes. -/
inductive PyError where
  | indexError
  | valueError
deriving DecidableEq

/-!  String primitives.  The string operations of the source (`str.split`,
`str.lower`, `str.strip`, `in`, `int(...)`, slicing) are implemented here by
structural recursion over the character list of a `String`, so that every
definition evaluates inside the kernel.  Unicode-specific behavior (Python's
full-Unicode lowercasing, underscore separators in `int`) is not modelled;
all inputs of interest are ASCII. -/

/-- Split a character list at every separator character, keeping empty
pieces — the semantics of Python `s.split(sep)` with an explicit
one-character separator (`''.split('-') == ['']`). -/
def splitChars (p : Char → Bool) : List Char → List (List Char)
  | [] => [[]]
  | c :: cs =>
    if p c then [] :: splitChars p cs
    else
      match splitChars p cs with
      | [] => [[c]]
      | piece :: more => (c :: piece) :: more

/-- Python `str.split()` with no argument: split on whitespace runs,
discarding empty pieces. -/
def pySplitWS (s : String) : List String :=
  ((splitChars Char.isWhitespace s.data).map String.mk).filter (fun t => t ≠ "")

/-- Python `str.split('-')`. -/
def pySplitDash (s : String) : List String :=
  (splitChars (fun c => c == '-') s.data).map String.mk

/-- Python `str.lower()` (ASCII). -/
def lowerString (s : String) : String :=
  String.mk (s.data.map Char.toLower)

/-- Drop leading and trailing whitespace from a character list. -/
def trimChars (l : List Char) : List Char :=
  ((l.dropWhile Char.isWhitespace).reverse.dropWhile Char.isWhitespace).reverse

/-- Python `str.strip()`. -/
def pyStrip (s : String) : String :=
  String.mk (trimChars s.data)

/-- Is the first list a prefix of the second? -/
def isPrefixOfChars : List Char → List Char → Bool
  | [], _ => true
  | _ :: _, [] => false
  | a :: as, b :: bs => a == b && isPrefixOfChars as bs

/-- All suffixes of a character list, longest first. -/
def suffixesOf : List Char → List (List Char)
  | [] => [[]]
  | c :: cs => (c :: cs) :: suffixesOf cs

/-- Python `needle in hay` on strings: substring containment. -/
def strContains (hay needle : String) : Bool :=
  (suffixesOf hay.data).any (fun t => isPrefixOfChars needle.data t)

/-- The numeric value of a decimal digit string. -/
def digitsToNat (l : List Char) : Nat :=
  l.foldl (fun n c => n * 10 + (c.toNat - 48)) 0

/-- Parse a non-empty all-digit character list. -/
def parseDigits (l : List Char) : Option Nat :=
  if l ≠ [] ∧ l.all Char.isDigit then some (digitsToNat l) else none

/-- Python `int(s)` restricted to the shapes reachable here: optional
surrounding whitespace, an optional sign, then decimal digits; anything else
raises `ValueError` (modelled as `none`). -/
def pyInt (s : String) : Option Int :=
  match trimChars s.data with
  | '-' :: rest => (parseDigits rest).map (fun n => -(n : Int))
  | '+' :: rest => (parseDigits rest).map (fun n => (n : Int))
  | t => (parseDigits t).map (fun n => (n : Int))

/-- Python `s[:n]` on a string (slicing by code point). -/
def pyTruncate (n : Nat) (s : String) : String :=
  String.mk (s.data.take n)

/-- Truthiness of the optional API key (`if self.api_key:`): `None` and the
empty string are falsy. -/
def apiKeyTruthy : Option String → Bool
  | none => false
  | some s => s ≠ ""

/-- Lines 49-51 / 87-89 and 153-155: decompose an inventor name into
`(target_first, target_last)` tokens.  `name_parts[-1] if len(name_parts) > 1
else name_parts[0]` raises `IndexError` when the split is empty. -/
def splitTargets (inventorName : String) : Except PyError (String × String) :=
  match pySplitWS (lowerString inventorName) with
  | [] => .error .indexError
  | [single] => .ok (single, single)
  | parts => .ok (parts.headD "", parts.getLastD "")

/-- `_remove_duplicates`, lines 267-278, with the `seen` set made explicit:
a record is kept iff its `patent_id` is truthy and not seen before. -/
def removeDuplicatesAux (seen : List String) : List RawPatent → List RawPatent
  | [] => []
  | p :: rest =>
    if p.patent_id ≠ "" ∧ p.patent_id ∉ seen then
      p :: removeDuplicatesAux (p.patent_id :: seen) rest
    else
      removeDuplicatesAux seen rest

/-- `_remove_duplicates(patents)`. -/
def remove_duplicates (patents : List RawPatent) : List RawPatent :=
  removeDuplicatesAux [] patents

/-- Lines 93-103: the assignee filter of both matchers — absent filter is
vacuously satisfied, otherwise some organization string must contain the
filter as a case-insensitive substring. -/
def assigneeMatchB (assigneeName : Option String) (asgs : List Assignee) : Bool :=
  match assigneeName with
  | none => true
  | some an => asgs.any (fun a => strContains (lowerString a.assignee_organization) (lowerString an))

/-- Lines 106-118: the PatentsView inventor check — names are lowercased AND
stripped before the exact comparison. -/
def pvInventorMatch (targetFirst targetLast : String) (invs : List Inventor) : Bool :=
  invs.any (fun inv =>
    pyStrip (lowerString inv.inventor_name_first) == targetFirst &&
    pyStrip (lowerString inv.inventor_name_last) == targetLast)

/-- Lines 91-121: acceptance of one PatentsView record into
`filtered_patents` (assignee check, then inventor check). -/
def pvRecordMatches (targetFirst targetLast : String) (assigneeName : Option String)
    (p : RawPatent) : Bool :=
  assigneeMatchB assigneeName p.assignees &&
    pvInventorMatch targetFirst targetLast p.inventors

/-- Lines 236-242: the scraped-page inventor check — lowercase only, no
stripping. -/
def googleInventorMatch (targetFirst targetLast : String) (invs : List Inventor) : Bool :=
  invs.any (fun inv =>
    lowerString inv.inventor_name_first == targetFirst &&
    lowerString inv.inventor_name_last == targetLast)

/-- `_extract_patent_from_result`, decision part (lines 235-265): a record
is returned iff title and patent number are non-empty and both matches hold.
The abstract was truncated to 2000 characters during extraction (line 204). -/
def extractPatentFromEntry (targetFirst targetLast : String)
    (assigneeName : Option String) (e : GoogleEntry) : Option RawPatent :=
  if e.title != "" && e.patentNum != "" &&
      googleInventorMatch targetFirst targetLast e.inventors &&
      assigneeMatchB assigneeName e.assignees then
    some { patent_id := e.patentNum
           patent_title := e.title
           patent_abstract := pyTruncate 2000 e.abstract
           patent_date := e.dateText
           inventors := e.inventors
           assignees := e.assignees }
  else
    none

deriving instance DecidableEq for Except

/-- The outcome of one `_search_patents_view` call: whether the network
request of line 74 was issued, and either the returned record list or the
Python exception that escaped. -/
structure PVRun where
  networkAttempted : Bool
  outcome : Except PyError (List RawPatent)
deriving DecidableEq

/-- The outcome of one `_search_google_patents` call; every exception is
caught inside (lines 163-165, 172-175), so it always returns a list. -/
structure AdapterRun where
  networkAttempted : Bool
  patents : List RawPatent
deriving DecidableEq

/-- `_search_patents_view`, lines 47-127.  `fetchOk` stubs transport success
of the single request; `apiPatents` stubs the records the API responds with.
Line 51 raises `IndexError` on an empty name before the request is made; a
transport failure is caught and yields `[]`; otherwise the records are
filtered by the strict matcher and deduplicated (line 123). -/
def searchPatentsView (inventorName : String) (assigneeName : Option String)
    (fetchOk : Bool) (apiPatents : List RawPatent) : PVRun :=
  match pySplitWS inventorName with
  | [] => ⟨false, .error .indexError⟩
  | _ :: _ =>
    if fetchOk then
      match splitTargets inventorName with
      | .error e => ⟨true, .error e⟩
      | .ok (targetFirst, targetLast) =>
        ⟨true, .ok (remove_duplicates
          (apiPatents.filter (pvRecordMatches targetFirst targetLast assigneeName)))⟩
    else
      ⟨true, .ok []⟩

/-- `_search_google_patents`, lines 129-175.  The GET of line 140 is the
first statement of the `try`, so a network request is always issued; every
exception afterwards (including the `IndexError` of line 155 on an empty
name) is swallowed by the blanket `except`, yielding `[]`.  At most the
first 20 entries are examined (line 157). -/
def searchGooglePatents (inventorName : String) (assigneeName : Option String)
    (fetchOk : Bool) (entries : List GoogleEntry) : AdapterRun :=
  if fetchOk then
    match splitTargets inventorName with
    | .error _ => ⟨true, []⟩
    | .ok (targetFirst, targetLast) =>
      ⟨true, (entries.take 20).filterMap
        (extractPatentFromEntry targetFirst targetLast assigneeName)⟩
  else
    ⟨true, []⟩

/-- The outcome of one `search_patents_by_inventor` call: which adapters
issued a network request, and the result or the escaping exception. -/
structure SearchRun where
  pvNetworkAttempted : Bool
  googleNetworkAttempted : Bool
  outcome : Except PyError (List RawPatent)
deriving DecidableEq

/-- `search_patents_by_inventor`, lines 29-45: the PatentsView adapter runs
only when the API key is truthy, and an exception escaping it aborts the
whole call before the Google adapter runs; otherwise both result lists are
concatenated and deduplicated. -/
def search_patents_by_inventor (inventorName : String) (assigneeName : Option String)
    (apiKey : Option String) (pvFetchOk : Bool) (apiPatents : List RawPatent)
    (gFetchOk : Bool) (gEntries : List GoogleEntry) : SearchRun :=
  if apiKeyTruthy apiKey then
    let pv := searchPatentsView inventorName assigneeName pvFetchOk apiPatents
    match pv.outcome with
    | .error e => ⟨pv.networkAttempted, false, .error e⟩
    | .ok pvList =>
      let g := searchGooglePatents inventorName assigneeName gFetchOk gEntries
      ⟨pv.networkAttempted, g.networkAttempted,
        .ok (remove_duplicates (pvList ++ g.patents))⟩
  else
    let g := searchGooglePatents inventorName assigneeName gFetchOk gEntries
    ⟨false, g.networkAttempted, .ok (remove_duplicates g.patents)⟩

/-- The canonical record built by `format_for_linkedin` (lines 287-320),
after the top-level `None` cleanup of line 319.  `dateEntries` is the JSON
dictionary stored under `"date"`: a key list with optional integer values,
where a `none` value is a stored `null` placeholder.  `url = none` and
`assignees = none` mean the key is absent from the record. -/
structure CanonicalPatent where
  title : String
  summary : String
  number : String
  status : String
  office : String
  inventors : List String
  dateEntries : List (String × Option Int)
  url : Option String
  assignees : Option (List String)
deriving DecidableEq

/-- One date-dictionary entry of lines 303-305: when its guard holds the
indicated segment is converted with `int(...)` (a failure raises
`ValueError`), otherwise the value is `None`. -/
def dateSeg (parts : List String) (idx : Nat) (guard : Bool) : Except Unit (Option Int) :=
  if guard then
    match pyInt (parts.getD idx "") with
    | some n => .ok (some n)
    | none => .error ()
  else
    .ok none

/-- The `"date"` dictionary of lines 302-306: split the raw date string on
`-`; year is converted when the string is truthy, month when more than one
segment exists, day when more than two exist. -/
def parseLinkedInDate (dateStr : String) : Except Unit (List (String × Option Int)) :=
  match dateSeg (pySplitDash dateStr) 0 (dateStr != ""),
        dateSeg (pySplitDash dateStr) 1 ((pySplitDash dateStr).length > 1),
        dateSeg (pySplitDash dateStr) 2 ((pySplitDash dateStr).length > 2) with
  | .ok y, .ok m, .ok d => .ok [("year", y), ("month", m), ("day", d)]
  | _, _, _ => .error ()

/-- Normalization of one record, lines 287-320, including the conditional
`assignees` key of lines 310-316 and the top-level `None` cleanup of
line 319 (which drops the `url` key when the identifier is falsy and
touches nothing nested). -/
def formatOnePatent (p : RawPatent) : Except Unit CanonicalPatent :=
  match parseLinkedInDate p.patent_date with
  | .error e => .error e
  | .ok dateEntries =>
    .ok { title := p.patent_title
          summary := if p.patent_abstract != "" then pyTruncate 2000 p.patent_abstract else ""
          number := p.patent_id
          status := "granted"
          office := "United States Patent and Trademark Office (USPTO)"
          inventors := p.inventors.map (fun inv =>
            pyStrip (inv.inventor_name_first ++ " " ++ inv.inventor_name_last))
          dateEntries := dateEntries
          url := if p.patent_id != "" then
              some ("https://patents.google.com/patent/US" ++ p.patent_id)
            else none
          assignees := if p.assignees != [] then
              some ((p.assignees.filter (fun a => a.assignee_organization != "")).map
                (fun a => a.assignee_organization))
            else none }

/-- `format_for_linkedin`, lines 280-322: records are normalized in order
and collected; an uncaught exception from any record aborts the whole call
(nothing is returned for the batch). -/
def format_for_linkedin : List RawPatent → Except Unit (List CanonicalPatent)
  | [] => .ok []
  | p :: rest =>
    match formatOnePatent p with
    | .error e => .error e
    | .ok c =>
      match format_for_linkedin rest with
      | .error e => .error e
      | .ok cs => .ok (c :: cs)

/-- Convenience: whether an `Except` carries a value. -/
def exceptIsOk : Except Unit (List CanonicalPatent) → Bool
  | .ok _ => true
  | .error _ => false

/-- Lines 500-503: the year observation contributed by one canonical record
— present iff the record's number is truthy and the `"year"` value of its
date dictionary is truthy (non-`None` and non-zero). -/
def recordYear (c : CanonicalPatent) : Option Int :=
  if c.number ≠ "" then
    match c.dateEntries.lookup "year" with
    | some (some y) => if y ≠ 0 then some y else none
    | _ => none
  else
    none

/-- Lines 492-503: the `years` list collected by `_print_portfolio_summary`,
in record order, with multiplicity. -/
def portfolioYears (patents : List CanonicalPatent) : List Int :=
  patents.filterMap recordYear

/-- Lines 541-545: the average innovation rate — computed iff the `years`
list has more than one element (with multiplicity), as
`len(patents) / (max(years) - min(years) + 1)`, in exact rational
arithmetic. -/
def innovationRate (patents : List CanonicalPatent) : Option ℚ :=
  match portfolioYears patents with
  | y0 :: y1 :: ys =>
    let maxY := (y1 :: ys).foldl max y0
    let minY := (y1 :: ys).foldl min y0
    some ((patents.length : ℚ) / ((maxY - minY + 1 : Int) : ℚ))
  | _ => none

/-- Transcribed from the spec's matcher clause (a): some inventor entry's
first and last names equal the targets case-insensitively and exactly. -/
def specInventorMatch (targetFirst targetLast : String) (invs : List Inventor) : Prop :=
  ∃ inv ∈ invs, lowerString inv.inventor_name_first = targetFirst ∧
    lowerString inv.inventor_name_last = targetLast

/-- The matcher clause (a) as the PatentsView code actually computes it:
names are stripped of surrounding whitespace after lowercasing. -/
def stripInventorMatch (targetFirst targetLast : String) (invs : List Inventor) : Prop :=
  ∃ inv ∈ invs, pyStrip (lowerString inv.inventor_name_first) = targetFirst ∧
    pyStrip (lowerString inv.inventor_name_last) = targetLast

/-- Transcribed from the spec's matcher clause (b): when a filter is
present, some assignee organization contains it as a case-insensitive
substring; an absent filter is vacuously satisfied. -/
def specAssigneeMatch (assigneeName : Option String) (asgs : List Assignee) : Prop :=
  ∀ an, assigneeName = some an →
    ∃ a ∈ asgs, strContains (lowerString a.assignee_organization) (lowerString an) = true

instance (tf tl : String) (invs : List Inventor) :
    Decidable (specInventorMatch tf tl invs) := by
  unfold specInventorMatch; infer_instance

instance (tf tl : String) (invs : List Inventor) :
    Decidable (stripInventorMatch tf tl invs) := by
  unfold stripInventorMatch; infer_instance

/-!  Concrete records used by the counterexamples and witnesses below. -/

/-- A raw record whose identifier is absent/empty. -/
def c1rec : RawPatent := ⟨"", "Widget", "", "", [], []⟩

/-- First occurrence of identifier `US10123456B2`. -/
def c2a : RawPatent := ⟨"US10123456B2", "First", "", "", [], []⟩

/-- A record with a different identifier. -/
def c2b : RawPatent := ⟨"US999", "Other", "", "", [], []⟩

/-- Second occurrence of identifier `US10123456B2`. -/
def c2a2 : RawPatent := ⟨"US10123456B2", "Second", "", "", [], []⟩

/-- A raw record whose date string has a single segment. -/
def c3rec : RawPatent := ⟨"10123456", "T", "", "2023", [], []⟩

/-- The canonical record `formatOnePatent` produces for `c3rec`. -/
def c3out : CanonicalPatent :=
  ⟨"T", "", "10123456", "granted",
    "United States Patent and Trademark Office (USPTO)", [],
    [("year", some 2023), ("month", none), ("day", none)],
    some "https://patents.google.com/patent/US10123456", none⟩

/-- A raw record with a well-formed date. -/
def c4good : RawPatent := ⟨"111", "Good", "", "2023-05-15", [], []⟩

/-- A raw record whose date has a non-numeric segment. -/
def c4bad : RawPatent := ⟨"222", "Bad", "", "20a3", [], []⟩

/-- A canonical record with the given number and year, for the analyzer. -/
def canonYear (num : String) (y : Int) : CanonicalPatent :=
  ⟨"t", "", num, "granted", "o", [],
    [("year", some y), ("month", none), ("day", none)], none, none⟩

/-- A raw record whose inventor first name carries surrounding whitespace. -/
def c7rec : RawPatent := ⟨"10", "T", "", "", [⟨" ashok ", "raj"⟩], []⟩

/-- A scraped entry whose inventor has the wrong last name. -/
def e7smith : GoogleEntry := ⟨"T", "US1", "", [⟨"ashok", "smith"⟩], [], ""⟩

/-- A raw record with an empty title but a matching inventor. -/
def c8rec : RawPatent := ⟨"10", "", "", "", [⟨"ashok", "raj"⟩], []⟩

/-- A scraped entry with full data and a matching inventor. -/
def e8ok : GoogleEntry :=
  ⟨"Dynamic CPU Frequency Scaling", "10123456", "", [⟨"Ashok", "Raj"⟩], [], "2023-05-15"⟩

/-- The raw record `extractPatentFromEntry` produces for `e8ok`. -/
def p8out : RawPatent :=
  ⟨"10123456", "Dynamic CPU Frequency Scaling", "", "2023-05-15", [⟨"Ashok", "Raj"⟩], []⟩

/-- A raw record with a non-empty identifier. -/
def c8w2rec : RawPatent := ⟨"55", "X", "", "", [], []⟩

/-- A raw record whose only assignee has an empty organization string. -/
def c9rec : RawPatent := ⟨"77", "T", "", "", [], [⟨""⟩]⟩

/-- The canonical record `formatOnePatent` produces for `c9rec`: note the
`assignees` key is present, holding the empty list. -/
def c9out : CanonicalPatent :=
  ⟨"T", "", "77", "granted",
    "United States Patent and Trademark Office (USPTO)", [],
    [("year", none), ("month", none), ("day", none)],
    some "https://patents.google.com/patent/US77", some []⟩

/-!  Helper lemmas about the deduplicator. -/

theorem removeDuplicatesAux_sublist (seen : List String) (l : List RawPatent) :
    (removeDuplicatesAux seen l).Sublist l := by
  induction l generalizing seen with
  | nil => simp [removeDuplicatesAux]
  | cons p rest ih =>
    unfold removeDuplicatesAux
    split
    · exact (ih _).cons₂ p
    · exact (ih _).cons p

theorem mem_removeDuplicatesAux (seen : List String) (l : List RawPatent) (p : RawPatent)
    (hp : p ∈ removeDuplicatesAux seen l) : p.patent_id ≠ "" ∧ p.patent_id ∉ seen := by
  induction l generalizing seen with
  | nil => simp [removeDuplicatesAux] at hp
  | cons q rest ih =>
    unfold removeDuplicatesAux at hp
    split at hp
    · rename_i h
      rcases List.mem_cons.mp hp with rfl | hmem
      · exact h
      · have h2 := ih _ hmem
        exact ⟨h2.1, fun hs => h2.2 (List.mem_cons_of_mem _ hs)⟩
    · exact ih _ hp

theorem removeDuplicatesAux_ids_nodup (seen : List String) (l : List RawPatent) :
    ((removeDuplicatesAux seen l).map (fun p => p.patent_id)).Nodup := by
  induction l generalizing seen with
  | nil => simp [removeDuplicatesAux]
  | cons q rest ih =>
    unfold removeDuplicatesAux
    split
    · simp only [List.map_cons, List.nodup_cons]
      refine ⟨fun hmem => ?_, ih _⟩
      rcases List.mem_map.mp hmem with ⟨r, hr, hid⟩
      exact (mem_removeDuplicatesAux _ _ _ hr).2 (hid ▸ List.mem_cons_self _ _)
    · exact ih _

theorem removeDuplicatesAux_eq_self (seen : List String) (l : List RawPatent)
    (hne : ∀ p ∈ l, p.patent_id ≠ "")
    (hnodup : (l.map (fun p => p.patent_id)).Nodup)
    (hdisj : ∀ p ∈ l, p.patent_id ∉ seen) :
    removeDuplicatesAux seen l = l := by
  induction l generalizing seen with
  | nil => simp [removeDuplicatesAux]
  | cons q rest ih =>
    unfold removeDuplicatesAux
    rw [if_pos ⟨hne q (List.mem_cons_self _ _), hdisj q (List.mem_cons_self _ _)⟩]
    congr 1
    simp only [List.map_cons, List.nodup_cons] at hnodup
    refine ih _ (fun p hp => hne p (List.mem_cons_of_mem _ hp)) hnodup.2 ?_
    intro p hp hmem
    rcases List.mem_cons.mp hmem with heq | hseen
    · exact hnodup.1 (heq ▸ List.mem_map.mpr ⟨p, hp, rfl⟩)
    · exact hdisj p (List.mem_cons_of_mem _ hp) hseen

theorem removeDuplicatesAux_skip (seen : List String) (l1 l2 : List RawPatent)
    (r : RawPatent) (hr : r.patent_id = "") :
    removeDuplicatesAux seen (l1 ++ r :: l2) = removeDuplicatesAux seen (l1 ++ l2) := by
  induction l1 generalizing seen with
  | nil =>
    simp only [List.nil_append]
    conv_lhs => unfold removeDuplicatesAux
    rw [if_neg (by simp [hr])]
  | cons q rest ih =>
    simp only [List.cons_append]
    conv_lhs => unfold removeDuplicatesAux
    conv_rhs => unfold removeDuplicatesAux
    split
    · rw [ih]
    · exact ih _

theorem removeDuplicatesAux_countP_mem (seen : List String) (l : List RawPatent)
    (v : String) (hv : v ∈ seen) :
    (removeDuplicatesAux seen l).countP (fun p => p.patent_id == v) = 0 := by
  induction l generalizing seen with
  | nil => simp [removeDuplicatesAux]
  | cons q rest ih =>
    unfold removeDuplicatesAux
    split
    · rename_i h
      rw [List.countP_cons]
      have hq : (q.patent_id == v) = false := by
        simp only [beq_eq_false_iff_ne, ne_eq]
        intro he; exact h.2 (he ▸ hv)
      simp [hq, ih (q.patent_id :: seen) (List.mem_cons_of_mem _ hv)]
    · exact ih _ hv

theorem removeDuplicatesAux_countP_one (seen : List String) (l : List RawPatent)
    (v : String) (hv : v ≠ "") (hseen : v ∉ seen)
    (hcnt : 1 ≤ l.countP (fun p => p.patent_id == v)) :
    (removeDuplicatesAux seen l).countP (fun p => p.patent_id == v) = 1 := by
  induction l generalizing seen with
  | nil => simp at hcnt
  | cons q rest ih =>
    by_cases hq : q.patent_id = v
    · unfold removeDuplicatesAux
      rw [if_pos ⟨hq ▸ hv, hq ▸ hseen⟩]
      have h0 := removeDuplicatesAux_countP_mem (q.patent_id :: seen) rest v
        (hq ▸ List.mem_cons_self _ _)
      rw [List.countP_cons, h0, if_pos (by simp [hq])]
    · have hqb : (q.patent_id == v) = false := by simp [hq]
      have hcnt2 : 1 ≤ rest.countP (fun p => p.patent_id == v) := by
        rw [List.countP_cons, hqb] at hcnt
        simpa using hcnt
      unfold removeDuplicatesAux
      split
      · rw [List.countP_cons, hqb]
        have hnotin : v ∉ q.patent_id :: seen := by
          intro hmem
          rcases List.mem_cons.mp hmem with heq | hs
          · exact hq heq.symm
          · exact hseen hs
        simp [ih (q.patent_id :: seen) hnotin hcnt2]
      · exact ih seen hseen hcnt2

theorem removeDuplicatesAux_find (seen : List String) (l : List RawPatent)
    (v : String) (hv : v ≠ "") (hseen : v ∉ seen) :
    (removeDuplicatesAux seen l).find? (fun p => p.patent_id == v)
      = l.find? (fun p => p.patent_id == v) := by
  induction l generalizing seen with
  | nil => simp [removeDuplicatesAux]
  | cons q rest ih =>
    by_cases hq : q.patent_id = v
    · unfold removeDuplicatesAux
      rw [if_pos ⟨hq ▸ hv, hq ▸ hseen⟩]
      rw [List.find?_cons_of_pos _ (by simp [hq]), List.find?_cons_of_pos _ (by simp [hq])]
    · have hqb : (q.patent_id == v) = false := by simp [hq]
      unfold removeDuplicatesAux
      split
      · rw [List.find?_cons_of_neg _ (by simp [hq]), List.find?_cons_of_neg _ (by simp [hq])]
        have hnotin : v ∉ q.patent_id :: seen := by
          intro hmem
          rcases List.mem_cons.mp hmem with heq | hs
          · exact hq heq.symm
          · exact hseen hs
        exact ih _ hnotin
      · rw [List.find?_cons_of_neg _ (by simp [hq])]
        exact ih seen hseen

/-- C1 counterexample: the record `c1rec` has an empty identifier, and the
deduplicator does not retain it — the output of deduplicating the one-record
list is empty, where the claim requires the record to be kept. -/
theorem c1_counterexample :
    c1rec.patent_id = "" ∧ remove_duplicates [c1rec] = [] := by
  constructor
  · rfl
  · decide

/-- C1 (amended): a raw record with an absent or empty identifier is dropped
by the deduplicator, not retained; its lack of an identifier is never used
as a dedup key — deleting the record from the input leaves the output
unchanged, so later records are unaffected by its presence. -/
theorem c1_empty_id_dropped (l1 l2 : List RawPatent) (r : RawPatent)
    (hr : r.patent_id = "") :
    remove_duplicates (l1 ++ r :: l2) = remove_duplicates (l1 ++ l2) ∧
    r ∉ remove_duplicates (l1 ++ r :: l2) := by
  refine ⟨removeDuplicatesAux_skip [] l1 l2 r hr, fun hmem => ?_⟩
  exact (mem_removeDuplicatesAux [] _ r hmem).1 hr

/-- C1 witness: instantiating the amended statement at `c1rec` between two
records with real identifiers. -/
theorem c1_witness :
    remove_duplicates ([c2a] ++ c1rec :: [c2b]) = remove_duplicates ([c2a] ++ [c2b]) ∧
    c1rec ∉ remove_duplicates ([c2a] ++ c1rec :: [c2b]) :=
  c1_empty_id_dropped [c2a] [c2b] c1rec rfl

/-- C2: when two or more input records share a non-empty identifier, the
deduplicated output is a subsequence of the input (order preserved)
containing exactly one record with that identifier, namely the
first-encountered one. -/
theorem c2_first_occurrence_kept (l : List RawPatent) (v : String) (hv : v ≠ "")
    (hdup : 2 ≤ l.countP (fun p => p.patent_id == v)) :
    (remove_duplicates l).Sublist l ∧
    (remove_duplicates l).countP (fun p => p.patent_id == v) = 1 ∧
    (remove_duplicates l).find? (fun p => p.patent_id == v)
      = l.find? (fun p => p.patent_id == v) := by
  refine ⟨removeDuplicatesAux_sublist [] l, ?_, ?_⟩
  · exact removeDuplicatesAux_countP_one [] l v hv (by simp)
      (le_trans (by norm_num) hdup)
  · exact removeDuplicatesAux_find [] l v hv (by simp)

/-- C2 witness: two records from different adapters share identifier
`US10123456B2`; the deduplicated set keeps a single record with that
identifier, the first-encountered one. -/
theorem c2_witness :
    ("US10123456B2" : String) ≠ "" ∧
    2 ≤ [c2a, c2b, c2a2].countP (fun p => p.patent_id == "US10123456B2") ∧
    (remove_duplicates [c2a, c2b, c2a2]).countP
      (fun p => p.patent_id == "US10123456B2") = 1 ∧
    (remove_duplicates [c2a, c2b, c2a2]).find?
        (fun p => p.patent_id == "US10123456B2")
      = [c2a, c2b, c2a2].find? (fun p => p.patent_id == "US10123456B2") := by
  refine ⟨by decide, by decide, ?_, ?_⟩
  · exact (c2_first_occurrence_kept [c2a, c2b, c2a2] "US10123456B2"
      (by decide) (by decide)).2.1
  · exact (c2_first_occurrence_kept [c2a, c2b, c2a2] "US10123456B2"
      (by decide) (by decide)).2.2

/-- C10: the deduplicator is idempotent — deduplicating its own output
returns that output unchanged. -/
theorem c10_dedup_idempotent (l : List RawPatent) :
    remove_duplicates (remove_duplicates l) = remove_duplicates l := by
  refine removeDuplicatesAux_eq_self [] _ ?_ (removeDuplicatesAux_ids_nodup [] l) ?_
  · intro p hp; exact (mem_removeDuplicatesAux [] _ _ hp).1
  · intro p _; simp

/-!  Helper lemmas about the normalizer. -/

theorem parseLinkedInDate_ok_shape (s : String) (es : List (String × Option Int))
    (h : parseLinkedInDate s = .ok es) :
    ∃ y m d, es = [("year", y), ("month", m), ("day", d)] ∧
      ((pySplitDash s).length ≤ 1 → m = none) ∧
      ((pySplitDash s).length ≤ 2 → d = none) := by
  unfold parseLinkedInDate at h
  split at h
  · rename_i y m d hy hm hd
    refine ⟨y, m, d, by injection h with h; exact h.symm, ?_, ?_⟩
    · intro hlen
      have hguard : decide ((pySplitDash s).length > 1) = false :=
        decide_eq_false (by omega)
      rw [hguard] at hm
      simpa [dateSeg] using hm.symm
    · intro hlen
      have hguard : decide ((pySplitDash s).length > 2) = false :=
        decide_eq_false (by omega)
      rw [hguard] at hd
      simpa [dateSeg] using hd.symm
  · cases h

theorem formatOnePatent_ok_shape (p : RawPatent) (c : CanonicalPatent)
    (h : formatOnePatent p = .ok c) :
    parseLinkedInDate p.patent_date = .ok c.dateEntries ∧
    c.assignees = (if p.assignees != [] then
        some ((p.assignees.filter (fun a => a.assignee_organization != "")).map
          (fun a => a.assignee_organization))
      else none) := by
  unfold formatOnePatent at h
  split at h
  · cases h
  · rename_i es hes
    injection h with h
    subst h
    exact ⟨hes, rfl⟩

/-- C3 counterexample: normalizing the record with date string `"2023"`
yields a date dictionary that stores `null` placeholders for month and day
(the keys are present with empty values), not a dictionary containing only
the year as the claim states. -/
theorem c3_counterexample :
    formatOnePatent c3rec = .ok c3out ∧
    ("month", (none : Option Int)) ∈ c3out.dateEntries ∧
    ("day", (none : Option Int)) ∈ c3out.dateEntries ∧
    c3out.dateEntries ≠ [("year", some 2023)] := by
  refine ⟨by decide, by decide, by decide, by decide⟩

/-- C3 (amended): for a date string with fewer than three `-`-separated
segments the normalizer stores `null` placeholders for the missing month/day
keys inside the date dictionary (the keys are present, valued `null`),
rather than leaving them absent; `"2023-05-15"` still yields year 2023,
month 5, day 15. -/
theorem c3_null_placeholders (p : RawPatent) (c : CanonicalPatent)
    (h : formatOnePatent p = .ok c) :
    ((pySplitDash p.patent_date).length ≤ 1 →
      ("month", (none : Option Int)) ∈ c.dateEntries ∧
      ("day", (none : Option Int)) ∈ c.dateEntries) ∧
    ((pySplitDash p.patent_date).length ≤ 2 →
      ("day", (none : Option Int)) ∈ c.dateEntries) ∧
    (p.patent_date = "2023-05-15" →
      c.dateEntries = [("year", some 2023), ("month", some 5), ("day", some 15)]) := by
  have hdate := (formatOnePatent_ok_shape p c h).1
  obtain ⟨y, m, d, hes, hm, hd⟩ := parseLinkedInDate_ok_shape _ _ hdate
  refine ⟨fun hlen => ?_, fun hlen => ?_, fun hds => ?_⟩
  · rw [hes, hm hlen, hd (by omega)]
    exact ⟨by simp, by simp⟩
  · rw [hes, hd hlen]
    simp
  · rw [hds] at hdate
    have hconc : parseLinkedInDate "2023-05-15"
        = .ok [("year", some 2023), ("month", some 5), ("day", some 15)] := by decide
    rw [hconc] at hdate
    injection hdate with hdate
    exact hdate.symm

/-- C3 witness: instantiating the amended statement at the record whose date
string is `"2023"` (one segment). -/
theorem c3_witness :
    formatOnePatent c3rec = .ok c3out ∧
    ("month", (none : Option Int)) ∈ c3out.dateEntries ∧
    ("day", (none : Option Int)) ∈ c3out.dateEntries := by
  refine ⟨by decide, ?_⟩
  have := (c3_null_placeholders c3rec c3out (by decide)).1 (by decide)
  exact this

/-- C4 counterexample: a batch holding a good record and a record with a
non-numeric date segment — normalization of the whole batch fails (no output
at all), while normalizing the good record alone succeeds; the claim instead
requires the malformed record to be kept with its date absent and the batch
to be unaffected. -/
theorem c4_counterexample :
    exceptIsOk (format_for_linkedin [c4good, c4bad]) = false ∧
    exceptIsOk (format_for_linkedin [c4good]) = true ∧
    c4bad.patent_date = "20a3" := by
  refine ⟨by decide, by decide, rfl⟩

/-- C4 (amended): if any record of a batch has a date string whose reachable
segment fails integer conversion, the conversion error aborts
`format_for_linkedin` for the entire batch — no record of the batch is
normalized, rather than the malformed record's date being reported absent. -/
theorem c4_malformed_date_fatal (l : List RawPatent) (p : RawPatent)
    (hp : p ∈ l) (hbad : parseLinkedInDate p.patent_date = .error ()) :
    format_for_linkedin l = .error () := by
  induction l with
  | nil => cases hp
  | cons q rest ih =>
    unfold format_for_linkedin
    rcases List.mem_cons.mp hp with rfl | hmem
    · unfold formatOnePatent
      rw [hbad]
    · cases hfq : formatOnePatent q with
      | error e => cases e; rfl
      | ok c => rw [ih hmem]

/-- C4 witness: instantiating the amended statement at the two-record batch
whose second record carries the date `"20a3"`. -/
theorem c4_witness :
    c4bad ∈ [c4good, c4bad] ∧
    parseLinkedInDate c4bad.patent_date = .error () ∧
    format_for_linkedin [c4good, c4bad] = .error () := by
  refine ⟨by decide, by decide, ?_⟩
  exact c4_malformed_date_fatal [c4good, c4bad] c4bad (by decide) (by decide)

/-- C9 counterexample: the record `c9rec` has one assignee entry whose
organization string is empty — every organization string is empty, yet the
canonical record carries the `assignees` key, holding the empty list; the
claim requires the key to be absent. -/
theorem c9_counterexample :
    (∀ a ∈ c9rec.assignees, a.assignee_organization = "") ∧
    c9rec.assignees ≠ [] ∧
    formatOnePatent c9rec = .ok c9out ∧
    c9out.assignees = some [] := by
  refine ⟨by decide, by decide, by decide, rfl⟩

/-- C9 (amended): the canonical record carries the `assignees` key iff the
raw record's assignee list is non-empty; when all organization strings are
empty the key is still present, holding the empty list (falsy entries are
filtered out of the value, not out of the presence test). -/
theorem c9_assignees_presence (p : RawPatent) (c : CanonicalPatent)
    (h : formatOnePatent p = .ok c) :
    (c.assignees.isSome = true ↔ p.assignees ≠ []) ∧
    ((∀ a ∈ p.assignees, a.assignee_organization = "") → p.assignees ≠ [] →
      c.assignees = some []) := by
  have hshape := (formatOnePatent_ok_shape p c h).2
  constructor
  · rw [hshape]
    by_cases hp : p.assignees = [] <;> simp [hp]
  · intro hall hne
    have hfil : p.assignees.filter (fun a => a.assignee_organization != "") = [] := by
      rw [List.filter_eq_nil_iff]
      intro a ha
      simpa using hall a ha
    rw [hshape, if_pos (by simpa using hne), hfil]
    rfl

/-- C9 witness: instantiating the amended statement at `c9rec`. -/
theorem c9_witness :
    formatOnePatent c9rec = .ok c9out ∧
    (c9out.assignees.isSome = true ↔ c9rec.assignees ≠ []) ∧
    c9out.assignees = some [] := by
  refine ⟨by decide, ?_, ?_⟩
  · exact (c9_assignees_presence c9rec c9out (by decide)).1
  · exact (c9_assignees_presence c9rec c9out (by decide)).2 (by decide) (by decide)

/-- C5 counterexample: a two-record set whose records share the single year
2020 — only one distinct year is observed, yet the analyzer reports a rate
(`2 / (2020-2020+1) = 2`); the claim requires no rate at all in this case. -/
theorem c5_counterexample :
    (portfolioYears [canonYear "1" 2020, canonYear "2" 2020]).dedup = [2020] ∧
    innovationRate [canonYear "1" 2020, canonYear "2" 2020] = some 2 := by
  refine ⟨by decide, ?_⟩
  simp [innovationRate, portfolioYears, recordYear, canonYear]

/-- C5 (amended): the analyzer reports
`count / (max_year - min_year + 1)` whenever at least two year observations
exist, counted with multiplicity over records with a truthy number and a
truthy year — not at least two distinct years; with one or zero year
observations no rate is reported. -/
theorem c5_rate_characterization :
    (∀ ps : List CanonicalPatent, 2 ≤ (portfolioYears ps).length →
      innovationRate ps = some ((ps.length : ℚ) /
        (((portfolioYears ps).max?.getD 0 - (portfolioYears ps).min?.getD 0 + 1 : Int) : ℚ))) ∧
    (∀ ps : List CanonicalPatent, (portfolioYears ps).length ≤ 1 →
      innovationRate ps = none) := by
  constructor
  · intro ps h
    unfold innovationRate
    rcases hys : portfolioYears ps with _ | ⟨y0, _ | ⟨y1, ys⟩⟩
    · rw [hys] at h; simp at h
    · rw [hys] at h; simp at h
    · rfl
  · intro ps h
    unfold innovationRate
    rcases hys : portfolioYears ps with _ | ⟨y0, _ | ⟨y1, ys⟩⟩
    · rfl
    · rfl
    · rw [hys] at h; simp at h

/-- C5 witness: the spec's own example — years 2019, 2019, 2021 over three
records — instantiates the amended statement and evaluates to rate 1. -/
theorem c5_witness :
    2 ≤ (portfolioYears [canonYear "1" 2019, canonYear "2" 2019, canonYear "3" 2021]).length ∧
    innovationRate [canonYear "1" 2019, canonYear "2" 2019, canonYear "3" 2021]
      = some (([canonYear "1" 2019, canonYear "2" 2019, canonYear "3" 2021].length : ℚ) /
        (((portfolioYears [canonYear "1" 2019, canonYear "2" 2019, canonYear "3" 2021]).max?.getD 0
          - (portfolioYears [canonYear "1" 2019, canonYear "2" 2019, canonYear "3" 2021]).min?.getD 0
          + 1 : Int) : ℚ)) ∧
    innovationRate [canonYear "1" 2019, canonYear "2" 2019, canonYear "3" 2021] = some 1 := by
  refine ⟨by decide, c5_rate_characterization.1 _ (by decide), ?_⟩
  simp [innovationRate, portfolioYears, recordYear, canonYear]

/-- C6 counterexample: invoked with an empty inventor name and no API key,
the pipeline still issues the scraped-page network request and completes
without reporting any violation (outcome is an ordinary empty result); the
claim requires a precondition violation to be reported before any adapter
runs and no network search to be attempted. -/
theorem c6_counterexample :
    (search_patents_by_inventor "" none none true [] true []).googleNetworkAttempted = true ∧
    (search_patents_by_inventor "" none none true [] true []).outcome = .ok [] := by
  exact ⟨by decide, by decide⟩

/-- C6 (amended): with an empty inventor name, behavior depends on the
credential.  With a truthy API key, an `IndexError` escapes the structured
adapter before its network request, aborting the run (the scraped adapter is
never reached).  Without one, the scraped adapter's network request is still
issued, the `IndexError` is swallowed, and the run returns an empty result
with no violation reported.  (It is also not the only fatal condition: a
malformed date aborts normalization, see the C4 theorems.) -/
theorem c6_empty_name_behavior (an : Option String) (key : Option String)
    (pvOk : Bool) (apiPs : List RawPatent) (gOk : Bool) (entries : List GoogleEntry) :
    (apiKeyTruthy key = true →
      search_patents_by_inventor "" an key pvOk apiPs gOk entries
        = ⟨false, false, .error .indexError⟩) ∧
    (apiKeyTruthy key = false →
      search_patents_by_inventor "" an key pvOk apiPs gOk entries
        = ⟨false, true, .ok []⟩) := by
  have hpv : searchPatentsView "" an pvOk apiPs = ⟨false, .error .indexError⟩ := by
    cases pvOk <;> rfl
  have hg : searchGooglePatents "" an gOk entries = ⟨true, []⟩ := by
    cases gOk <;> rfl
  constructor
  · intro hk
    simp [search_patents_by_inventor, hk, hpv]
  · intro hk
    simp [search_patents_by_inventor, hk, hg]
    rfl

/-- C6 witness: instantiating the amended statement with and without a
credential. -/
theorem c6_witness :
    search_patents_by_inventor "" none (some "key") true [] true []
      = ⟨false, false, .error .indexError⟩ ∧
    search_patents_by_inventor "" (some "Intel") none false [] false []
      = ⟨false, true, .ok []⟩ :=
  ⟨(c6_empty_name_behavior none (some "key") true [] true []).1 (by decide),
   (c6_empty_name_behavior (some "Intel") none false [] false []).2 (by decide)⟩

/-- C7 counterexample: the structured-API matcher accepts the record whose
inventor is `{first: " ashok ", last: "raj"}` for targets `ashok`/`raj`
(names are stripped before comparison), although no inventor entry's names
equal the targets case-insensitively as the claim requires. -/
theorem c7_counterexample :
    pvRecordMatches "ashok" "raj" none c7rec = true ∧
    ¬ specInventorMatch "ashok" "raj" c7rec.inventors :=
  ⟨by decide, by decide⟩

/-- C7 (amended): the structured-API matcher accepts a record iff some
inventor entry's first/last names — lowercased and stripped of surrounding
whitespace — equal the targets, and the assignee condition holds; the
scraped-page path computes the inventor condition exactly as claimed
(lowercase only), but only returns a record if additionally its title and
patent number are non-empty. -/
theorem c7_matcher_characterization (tf tl : String) (an : Option String) :
    (∀ p : RawPatent, pvRecordMatches tf tl an p = true ↔
      (stripInventorMatch tf tl p.inventors ∧ specAssigneeMatch an p.assignees)) ∧
    (∀ e : GoogleEntry, (extractPatentFromEntry tf tl an e).isSome = true ↔
      (e.title ≠ "" ∧ e.patentNum ≠ "" ∧ specInventorMatch tf tl e.inventors ∧
        specAssigneeMatch an e.assignees)) := by
  have hassignee : ∀ asgs, assigneeMatchB an asgs = true ↔ specAssigneeMatch an asgs := by
    intro asgs
    cases an with
    | none => simp [assigneeMatchB, specAssigneeMatch]
    | some a => simp [assigneeMatchB, specAssigneeMatch, List.any_eq_true]
  constructor
  · intro p
    rw [pvRecordMatches, Bool.and_eq_true, hassignee]
    constructor
    · rintro ⟨hA, hI⟩
      exact ⟨by simpa [pvInventorMatch, stripInventorMatch, List.any_eq_true] using hI, hA⟩
    · rintro ⟨hI, hA⟩
      exact ⟨hA, by simpa [pvInventorMatch, stripInventorMatch, List.any_eq_true] using hI⟩
  · intro e
    unfold extractPatentFromEntry
    split
    · rename_i hcond
      simp only [Option.isSome_some, true_iff]
      rw [Bool.and_eq_true, Bool.and_eq_true, Bool.and_eq_true] at hcond
      refine ⟨by simpa using hcond.1.1.1, by simpa using hcond.1.1.2, ?_,
        (hassignee _).mp hcond.2⟩
      simpa [googleInventorMatch, specInventorMatch, List.any_eq_true] using hcond.1.2
    · rename_i hcond
      refine ⟨fun habs => absurd habs (by simp), fun hrhs => absurd ?_ hcond⟩
      rw [Bool.and_eq_true, Bool.and_eq_true, Bool.and_eq_true]
      refine ⟨⟨⟨by simpa using hrhs.1, by simpa using hrhs.2.1⟩, ?_⟩,
        (hassignee _).mpr hrhs.2.2.2⟩
      simpa [googleInventorMatch, specInventorMatch, List.any_eq_true] using hrhs.2.2.1

/-- C7 witness: the spec's own rejection example — inventor
`{first: "ashok", last: "smith"}` is rejected for targets `ashok`/`raj`
regardless of assignee — via the amended characterization. -/
theorem c7_witness :
    ((extractPatentFromEntry "ashok" "raj" none e7smith).isSome = true ↔
      (e7smith.title ≠ "" ∧ e7smith.patentNum ≠ "" ∧
        specInventorMatch "ashok" "raj" e7smith.inventors ∧
        specAssigneeMatch none e7smith.assignees)) ∧
    extractPatentFromEntry "ashok" "raj" none e7smith = none :=
  ⟨(c7_matcher_characterization "ashok" "raj" none).2 e7smith, by decide⟩

/-- C8 counterexample: the structured-API matcher's accept path performs no
title/number check — the record `c8rec`, whose title is empty, is accepted
and returned by the structured adapter; the claim requires every accepted
record to have a non-empty title. -/
theorem c8_counterexample :
    searchPatentsView "ashok raj" none true [c8rec] = ⟨true, .ok [c8rec]⟩ ∧
    c8rec.patent_title = "" ∧
    pvRecordMatches "ashok" "raj" none c8rec = true :=
  ⟨by decide, rfl, by decide⟩

/-- C8 (amended): every record returned by the scraped-page accept path has
a non-empty title and identifier; the structured-API path guarantees
neither, but the deduplicator — applied to the merged output of both
adapters — drops every empty-identifier record, so every record that
reaches the normalizer has a non-empty identifier (its title may still be
empty when it came from the structured path). -/
theorem c8_title_number_guarantees :
    (∀ (tf tl : String) (an : Option String) (e : GoogleEntry) (p : RawPatent),
      extractPatentFromEntry tf tl an e = some p →
      p.patent_title ≠ "" ∧ p.patent_id ≠ "") ∧
    (∀ (l : List RawPatent) (p : RawPatent), p ∈ remove_duplicates l →
      p.patent_id ≠ "") := by
  constructor
  · intro tf tl an e p h
    unfold extractPatentFromEntry at h
    split at h
    · rename_i hcond
      rw [Bool.and_eq_true, Bool.and_eq_true, Bool.and_eq_true] at hcond
      injection h with h
      subst h
      exact ⟨by simpa using hcond.1.1.1, by simpa using hcond.1.1.2⟩
    · cases h
  · intro l p h
    exact (mem_removeDuplicatesAux [] l p h).1

/-- C8 witness: instantiating the amended statement at a fully-populated
scraped entry and at a deduplicated one-record list. -/
theorem c8_witness :
    extractPatentFromEntry "ashok" "raj" none e8ok = some p8out ∧
    p8out.patent_title ≠ "" ∧ p8out.patent_id ≠ "" ∧
    c8w2rec ∈ remove_duplicates [c8w2rec] ∧ c8w2rec.patent_id ≠ "" := by
  refine ⟨by decide, ?_, ?_, by decide, ?_⟩
  · exact (c8_title_number_guarantees.1 "ashok" "raj" none e8ok p8out (by decide)).1
  · exact (c8_title_number_guarantees.1 "ashok" "raj" none e8ok p8out (by decide)).2
  · exact c8_title_number_guarantees.2 [c8w2rec] c8w2rec (by decide)
